import Mathlib

/-!
Shallow embedding of the first-person character controller in `src/src/main.rs`
(a small Bevy application).  The per-tick systems registered in `main` —
`grab_cursor`, `camera_movement`, `controller_update`, `movement`, `friction`,
`gravity` — are embedded as pure functions on an explicit game state.  The
`f32` arithmetic of the source is idealised as exact rational arithmetic `ℚ`;
the trigonometric camera geometry (the `Transform::forward` vector and its
normalisation in `movement`) is characterised separately by `Prop`-valued
relations over `ℝ` (`CameraForwardIs`, `HorizNormalizedIs`), and the sampled
horizontal facing direction enters the rational tick model as a per-tick input
(`TickInput.forward_h`).

`camera_follow` and `debug_log` touch no state modelled here (the camera's
world position and logging) and are omitted.  The external Rapier kinematic
mover consuming `controller.translation = Some(velocity * dt)` is out of the
repository; per spec section 4.7 the height-threshold strategy integrates the
displacement directly, which is how `controller_update` is embedded.
-/

/-- Exact value of the literal `TAU` at the top of `main.rs` (line 9). -/
def TAU : ℚ := 6.283185307179586476925286766559

/-- Gravity constant, `main.rs` line 10. -/
def GRAVITY : ℚ := 3

/-- Player height, `main.rs` line 12. -/
def PLAYER_HEIGHT : ℚ := 1.6

/-- Rational 3-vector standing for Bevy `Vec3` (components idealised from f32). -/
structure Vec3 where
  x : ℚ
  y : ℚ
  z : ℚ
deriving DecidableEq, Repr

instance : Add Vec3 := ⟨fun a b => ⟨a.x + b.x, a.y + b.y, a.z + b.z⟩⟩

instance : Sub Vec3 := ⟨fun a b => ⟨a.x - b.x, a.y - b.y, a.z - b.z⟩⟩

/-- Scalar multiple of a vector, standing for `Vec3 * f32` (and `*=`). -/
def Vec3.smul (q : ℚ) (v : Vec3) : Vec3 := ⟨q * v.x, q * v.y, q * v.z⟩

theorem Vec3.add_def (a b : Vec3) : a + b = ⟨a.x + b.x, a.y + b.y, a.z + b.z⟩ := rfl

theorem Vec3.sub_def (a b : Vec3) : a - b = ⟨a.x - b.x, a.y - b.y, a.z - b.z⟩ := rfl

/-- Bevy `CursorGrabMode`; the source only ever writes `Confined` and `None`
(`setup` line 110, `grab_cursor` lines 122 and 126). -/
inductive CursorGrabMode where
  | None
  | Confined
  | Locked
deriving DecidableEq, Repr

/-- The spec's two-state cursor capture abstraction (spec section 4.2):
`Captured` when the cursor is grabbed, `Released` when not. -/
inductive CaptureState where
  | Captured
  | Released
deriving DecidableEq, Repr

/-- Map the window's grab mode to the spec's capture state. -/
def captureOf : CursorGrabMode → CaptureState
  | CursorGrabMode.None => CaptureState.Released
  | _ => CaptureState.Captured

/-- The `Player` component (`main.rs` lines 36-40) together with its
`Transform.translation` (the player entity's position). -/
structure PlayerState where
  position : Vec3
  velocity : Vec3
  is_grounded : Bool
deriving DecidableEq, Repr

/-- Camera orientation as the accumulated yaw/pitch angles.  The source stores
the quaternion `Quat::from_axis_angle(Y, yaw) * Quat::from_axis_angle(X, pitch)`
and re-extracts `(yaw, pitch)` with `to_euler(EulerRot::YXZ)` each event
(`camera_movement` lines 151 and 165-166); for pitch inside the clamp range the
extraction recovers the stored angles, so the state carries them directly. -/
structure CameraState where
  yaw : ℚ
  pitch : ℚ
deriving DecidableEq, Repr

/-- The primary window's cursor fields written by `setup` and `grab_cursor`. -/
structure WindowState where
  grab_mode : CursorGrabMode
  visible : Bool
deriving DecidableEq, Repr

/-- Whole modelled game state. -/
structure GameState where
  player : PlayerState
  camera : CameraState
  window : WindowState
deriving DecidableEq, Repr

/-- The `Settings` resource (`main.rs` lines 42-45). -/
structure Settings where
  sensitivity : ℚ
deriving DecidableEq, Repr

/-- `Default for Settings` (`main.rs` lines 47-51): sensitivity 0.001. -/
def default_settings : Settings := ⟨0.001⟩

/-- One tick's worth of external input, as sampled by Bevy resources:
elapsed time, the `MouseMotion` event queue, the currently-pressed key set
(`Input::get_pressed`), and the just-pressed edge flags (`Input::just_pressed`).
`just_space` is provided by the engine like the other edge flags; the source
never reads it (`movement` matches on the pressed set only).  `forward_h`
is the horizontal facing `(x, z)` that `movement` computes from the camera
transform — its real-valued characterisation is `HorizNormalizedIs` applied to
`CameraForwardIs`; the rational tick model takes the sampled value as input. -/
structure TickInput where
  dt : ℚ
  mouse_deltas : List (ℚ × ℚ)
  pressed_e : Bool
  pressed_s : Bool
  pressed_d : Bool
  pressed_f : Bool
  pressed_space : Bool
  just_escape : Bool
  just_left_mouse : Bool
  just_space : Bool
  forward_h : ℚ × ℚ
deriving DecidableEq, Repr

/-- Rust `f32::clamp(lo, hi)`: below the range gives `lo`, above gives `hi`,
otherwise the value itself. -/
def rclamp (x lo hi : ℚ) : ℚ := if x < lo then lo else if x > hi then hi else x

/-- System `grab_cursor` (`main.rs` lines 115-129): on a just-pressed Escape
release the cursor (grab `None`, visible); on a just-pressed left mouse button
confine it (grab `Confined`, invisible).  Both `if`s run in order, so when both
edges fire in one tick the left-mouse branch wins. -/
def grab_cursor (inp : TickInput) (g : GameState) : GameState :=
  let w0 := g.window
  let w1 := if inp.just_escape then
      { grab_mode := CursorGrabMode.None, visible := true } else w0
  let w2 := if inp.just_left_mouse then
      { grab_mode := CursorGrabMode.Confined, visible := false } else w1
  { g with window := w2 }

/-- One iteration of the `camera_movement` event loop (`main.rs` lines 149-167)
for a single `MouseMotion` delta: when the grab mode is `None` the delta is
discarded, otherwise yaw and pitch each decrease by `delta * sensitivity`;
pitch is then clamped to `[-TAU/5, TAU/5]` (line 163) and the rotation is
recomposed from the resulting angles. -/
def camera_event (s : Settings) (mode : CursorGrabMode) (delta : ℚ × ℚ)
    (c : CameraState) : CameraState :=
  let yaw :=
    match mode with
    | CursorGrabMode.None => c.yaw
    | _ => c.yaw - delta.1 * s.sensitivity
  let pitch :=
    match mode with
    | CursorGrabMode.None => c.pitch
    | _ => c.pitch - delta.2 * s.sensitivity
  { yaw := yaw, pitch := rclamp pitch (-(TAU / 5)) (TAU / 5) }

/-- System `camera_movement` (`main.rs` lines 142-170): fold the event handler
over this tick's `MouseMotion` events. -/
def camera_movement (s : Settings) (inp : TickInput) (g : GameState) : GameState :=
  { g with
    camera := inp.mouse_deltas.foldl
      (fun c d => camera_event s g.window.grab_mode d c) g.camera }

/-- System `controller_update` (`main.rs` lines 172-178): request the
displacement `velocity * dt` from the kinematic character controller.  The
external mover is outside the repository; per the spec's height-threshold
strategy (section 4.7) the displacement is added to the position directly. -/
def controller_update (inp : TickInput) (g : GameState) : GameState :=
  { g with player :=
      { g.player with
        position := g.player.position + Vec3.smul inp.dt g.player.velocity } }

/-- System `movement` (`main.rs` lines 180-210).  `forward` is the camera
facing with `y` zeroed and re-normalised (lines 188-192; the sampled value is
`inp.forward_h`, with `y = 0` exactly since normalising preserves the zero
component); `right = Vec3::new(-forward.z, 0, forward.x)` (line 193);
`speed = 1`, `jump_speed = 2`.  The source iterates over the pressed-key set;
the four velocity additions commute and only the `Space` arm reads or writes
`is_grounded`, which appears at most once in the set, so the fixed order below
is equivalent to any iteration order. -/
def movement (inp : TickInput) (g : GameState) : GameState :=
  let forward : Vec3 := ⟨inp.forward_h.1, 0, inp.forward_h.2⟩
  let right : Vec3 := ⟨-forward.z, 0, forward.x⟩
  let speed : ℚ := 1
  let jump_speed : ℚ := 2
  let v0 := g.player.velocity
  let v1 := if inp.pressed_e then v0 + Vec3.smul speed forward else v0
  let v2 := if inp.pressed_s then v1 - Vec3.smul speed right else v1
  let v3 := if inp.pressed_d then v2 - Vec3.smul speed forward else v2
  let v4 := if inp.pressed_f then v3 + Vec3.smul speed right else v3
  if inp.pressed_space && g.player.is_grounded then
    { g with player :=
        { g.player with
          velocity := { v4 with y := v4.y + jump_speed }
          is_grounded := false } }
  else
    { g with player := { g.player with velocity := v4 } }

/-- System `friction` (`main.rs` lines 224-230): when grounded, multiply the
whole velocity vector by `slow_down = 0.8` (the source scales all three
components, `player.velocity *= slow_down`). -/
def friction (g : GameState) : GameState :=
  let slow_down : ℚ := 0.8
  if g.player.is_grounded then
    { g with player :=
        { g.player with velocity := Vec3.smul slow_down g.player.velocity } }
  else g

/-- First half of system `gravity` (`main.rs` lines 214-216): when airborne,
subtract `GRAVITY * dt` from the vertical velocity. -/
def gravity_integrate (inp : TickInput) (g : GameState) : GameState :=
  if !g.player.is_grounded then
    { g with player :=
        { g.player with
          velocity :=
            { g.player.velocity with
              y := g.player.velocity.y - GRAVITY * inp.dt } } }
  else g

/-- Second half of system `gravity` (`main.rs` lines 217-221), the
height-threshold ground resolution: when the translation has sunk below 0,
snap it back to 0, zero the vertical velocity and mark the player grounded. -/
def ground_resolve (g : GameState) : GameState :=
  if g.player.position.y < 0 then
    { g with player :=
        { position := { g.player.position with y := 0 }
          velocity := { g.player.velocity with y := 0 }
          is_grounded := true } }
  else g

/-- System `gravity` (`main.rs` lines 212-222): vertical integration followed
by ground resolution. -/
def gravity (inp : TickInput) (g : GameState) : GameState :=
  ground_resolve (gravity_integrate inp g)

/-- One full tick: the systems in their registration order in `main`
(`main.rs` lines 22-29), with `camera_follow` and `debug_log` omitted as they
do not touch the modelled state.  The `Settings` resource is the default one
(`init_resource`, never mutated). -/
def tick (inp : TickInput) (g : GameState) : GameState :=
  gravity inp
    (friction
      (movement inp
        (controller_update inp
          (camera_movement default_settings inp
            (grab_cursor inp g)))))

/-- The state produced by `setup` (`main.rs` lines 89-112): player at the
default transform with zero velocity and grounded (lines 90-99), camera at
identity rotation (yaw and pitch zero, line 103), cursor confined and
invisible (lines 109-112). -/
def initState : GameState :=
  { player := { position := ⟨0, 0, 0⟩, velocity := ⟨0, 0, 0⟩, is_grounded := true }
    camera := { yaw := 0, pitch := 0 }
    window := { grab_mode := CursorGrabMode.Confined, visible := false } }

/-- States reachable from `setup` by whole ticks with arbitrary inputs. -/
inductive Reachable : GameState → Prop where
  | init : Reachable initState
  | step (g : GameState) (inp : TickInput) : Reachable g → Reachable (tick inp g)

/-- Characterisation over `ℝ` of `camera_transform.forward()` for the rotation
`Quat::from_axis_angle(Vec3::Y, yaw) * Quat::from_axis_angle(Vec3::X, pitch)`
(`main.rs` lines 165-166): the forward vector is the rotation applied to
`-Z`, i.e. the Y-rotation by `yaw` of the X-rotation by `pitch` of
`(0, 0, -1)`, which is `(-cos pitch * sin yaw, sin pitch, -cos pitch * cos yaw)`. -/
def CameraForwardIs (yaw pitch : ℝ) (v : ℝ × ℝ × ℝ) : Prop :=
  v.1 = -(Real.cos pitch * Real.sin yaw) ∧
  v.2.1 = Real.sin pitch ∧
  v.2.2 = -(Real.cos pitch * Real.cos yaw)

/-- Characterisation over `ℝ` of the `forward` computation in `movement`
(`main.rs` lines 188-192): zero the `y` component of `v`, then normalise,
i.e. divide by the Euclidean length of `(v.x, 0, v.z)`. -/
def HorizNormalizedIs (v h : ℝ × ℝ × ℝ) : Prop :=
  h.1 = v.1 / Real.sqrt (v.1 ^ 2 + v.2.2 ^ 2) ∧
  h.2.1 = 0 ∧
  h.2.2 = v.2.2 / Real.sqrt (v.1 ^ 2 + v.2.2 ^ 2)

/-- A tick input with nothing pressed, no mouse motion, `dt = 1`, and the
initial facing `(0, -1)` (towards `-Z`). -/
def idleInput : TickInput :=
  { dt := 1, mouse_deltas := [], pressed_e := false, pressed_s := false
    pressed_d := false, pressed_f := false, pressed_space := false
    just_escape := false, just_left_mouse := false, just_space := false
    forward_h := (0, -1) }

/-- The ground invariant of spec section 8: a grounded player has zero
vertical velocity. -/
def GroundInv (g : GameState) : Prop :=
  g.player.is_grounded = true → g.player.velocity.y = 0

theorem grab_cursor_player (inp : TickInput) (g : GameState) :
    (grab_cursor inp g).player = g.player := rfl

theorem camera_movement_player (s : Settings) (inp : TickInput) (g : GameState) :
    (camera_movement s inp g).player = g.player := rfl

theorem controller_update_velocity (inp : TickInput) (g : GameState) :
    (controller_update inp g).player.velocity = g.player.velocity := rfl

theorem controller_update_grounded (inp : TickInput) (g : GameState) :
    (controller_update inp g).player.is_grounded = g.player.is_grounded := rfl

theorem movement_velocity_y (inp : TickInput) (g : GameState) :
    (movement inp g).player.velocity.y =
      g.player.velocity.y +
        (if inp.pressed_space && g.player.is_grounded then 2 else 0) := by
  simp only [movement]
  split_ifs <;> simp [Vec3.smul, Vec3.add_def, Vec3.sub_def]

theorem movement_is_grounded (inp : TickInput) (g : GameState) :
    (movement inp g).player.is_grounded =
      (if inp.pressed_space && g.player.is_grounded then false
        else g.player.is_grounded) := by
  simp only [movement]
  split_ifs <;> rfl

theorem friction_is_grounded (g : GameState) :
    (friction g).player.is_grounded = g.player.is_grounded := by
  simp only [friction]
  split_ifs <;> rfl

theorem friction_velocity (g : GameState) :
    (friction g).player.velocity =
      (if g.player.is_grounded then Vec3.smul 0.8 g.player.velocity
        else g.player.velocity) := by
  simp only [friction]
  split_ifs <;> rfl

theorem gravity_integrate_grounded_id (inp : TickInput) (g : GameState)
    (h : g.player.is_grounded = true) : gravity_integrate inp g = g := by
  simp [gravity_integrate, h]

theorem gravity_integrate_is_grounded (inp : TickInput) (g : GameState) :
    (gravity_integrate inp g).player.is_grounded = g.player.is_grounded := by
  simp only [gravity_integrate]
  split_ifs <;> rfl

theorem ground_resolve_inv (g : GameState) : GroundInv g → GroundInv (ground_resolve g) := by
  intro h
  simp only [GroundInv, ground_resolve] at h ⊢
  split_ifs with hy
  · intro _
    rfl
  · exact h

theorem grab_cursor_inv (inp : TickInput) (g : GameState) :
    GroundInv g → GroundInv (grab_cursor inp g) := by
  intro h
  simpa [GroundInv, grab_cursor_player] using h

theorem camera_movement_inv (s : Settings) (inp : TickInput) (g : GameState) :
    GroundInv g → GroundInv (camera_movement s inp g) := by
  intro h
  simpa [GroundInv, camera_movement_player] using h

theorem controller_update_inv (inp : TickInput) (g : GameState) :
    GroundInv g → GroundInv (controller_update inp g) := by
  intro h
  simpa [GroundInv, controller_update_velocity, controller_update_grounded] using h

theorem movement_inv (inp : TickInput) (g : GameState) :
    GroundInv g → GroundInv (movement inp g) := by
  intro h
  simp only [GroundInv, movement_velocity_y, movement_is_grounded]
  split_ifs with hj
  · simp
  · intro hg
    simp [h hg]

theorem friction_inv (g : GameState) : GroundInv g → GroundInv (friction g) := by
  intro h
  simp only [GroundInv, friction_is_grounded, friction_velocity]
  intro hg
  simp [hg, Vec3.smul, h hg]

theorem gravity_integrate_inv (inp : TickInput) (g : GameState) :
    GroundInv g → GroundInv (gravity_integrate inp g) := by
  intro h
  by_cases hg : g.player.is_grounded = true
  · rw [gravity_integrate_grounded_id inp g hg]
    exact h
  · simp only [GroundInv, gravity_integrate_is_grounded]
    intro hc
    exact absurd hc hg

theorem tick_inv (inp : TickInput) (g : GameState) : GroundInv g → GroundInv (tick inp g) := by
  intro h
  unfold tick gravity
  exact ground_resolve_inv _ (gravity_integrate_inv _ _ (friction_inv _
    (movement_inv _ _ (controller_update_inv _ _
      (camera_movement_inv _ _ _ (grab_cursor_inv _ _ h))))))

theorem reachable_ground_inv (g : GameState) (h : Reachable g) : GroundInv g := by
  induction h with
  | init => intro hg; rfl
  | step g inp _ ih => exact tick_inv inp g ih

/-- A state in mid-fall that has sunk below ground level. -/
def fallen_state : GameState :=
  { player := { position := ⟨0, -1, 0⟩, velocity := ⟨0, -5, 0⟩, is_grounded := false }
    camera := { yaw := 0, pitch := 0 }
    window := { grab_mode := CursorGrabMode.Confined, visible := false } }

/-- C1: for every reachable end-of-tick state, `is_grounded = true` implies the
vertical component of the player velocity is zero; and in the tick in which the
ground-contact resolution inside `gravity` (re)establishes grounding, the
vertical velocity is set to zero. -/
theorem grounded_velocity_zero_invariant :
    (∀ g : GameState, Reachable g → g.player.is_grounded = true →
      g.player.velocity.y = 0) ∧
    (∀ (inp : TickInput) (g : GameState), g.player.is_grounded = false →
      (gravity inp g).player.is_grounded = true →
      (gravity inp g).player.velocity.y = 0) := by
  constructor
  · exact fun g h => reachable_ground_inv g h
  · intro inp g hg hgr
    unfold gravity at hgr ⊢
    by_cases hy : (gravity_integrate inp g).player.position.y < 0
    · simp [ground_resolve, if_pos hy]
    · simp only [ground_resolve, if_neg hy] at hgr
      rw [gravity_integrate_is_grounded, hg] at hgr
      cases hgr

/-- C1 witness: the invariant applied at the initial state, and the grounding
tick applied to a concrete fallen state. -/
theorem grounded_velocity_zero_invariant_witness :
    initState.player.velocity.y = 0 ∧
    (gravity idleInput fallen_state).player.velocity.y = 0 :=
  ⟨grounded_velocity_zero_invariant.1 initState Reachable.init rfl,
    grounded_velocity_zero_invariant.2 idleInput fallen_state rfl (by
      norm_num [gravity, gravity_integrate, ground_resolve, fallen_state, idleInput])⟩

/-- The idle input with the jump key held down (but not freshly pressed). -/
def heldSpaceInput : TickInput := { idleInput with pressed_space := true }

/-- C2 counterexample: with the jump key held but not freshly pressed this tick
(`just_space = false`) and the player grounded, `movement` still jumps (adds
the vertical impulse 2 and clears `is_grounded`): the source iterates
`keys.get_pressed()` and never consults the just-pressed edge for Space, so
the claim that the jump occurs exactly on a fresh press is false. -/
theorem jump_fires_without_fresh_press :
    heldSpaceInput.just_space = false ∧
    initState.player.is_grounded = true ∧
    (movement heldSpaceInput initState).player.velocity.y =
      initState.player.velocity.y + 2 ∧
    (movement heldSpaceInput initState).player.is_grounded = false := by
  refine ⟨rfl, rfl, ?_, ?_⟩
  · rw [movement_velocity_y]
    norm_num [heldSpaceInput, idleInput, initState]
  · rw [movement_is_grounded]
    norm_num [heldSpaceInput, idleInput, initState]

/-- C2 amended: the jump action (vertical impulse 2 added to velocity and
`is_grounded` cleared) occurs exactly when the jump key is currently held
(pressed) this tick and `is_grounded` is true; in every other case `movement`
leaves `is_grounded` and the vertical velocity unchanged.  In particular a key
held across ticks re-triggers the jump on any later tick in which the player
is grounded again, without requiring a release. -/
theorem jump_iff_held_and_grounded (inp : TickInput) (g : GameState) :
    (((movement inp g).player.is_grounded = false ∧
        (movement inp g).player.velocity.y = g.player.velocity.y + 2) ↔
      (inp.pressed_space = true ∧ g.player.is_grounded = true)) ∧
    (inp.pressed_space = false ∨ g.player.is_grounded = false →
      (movement inp g).player.is_grounded = g.player.is_grounded ∧
      (movement inp g).player.velocity.y = g.player.velocity.y) := by
  simp only [movement_is_grounded, movement_velocity_y]
  by_cases hs : inp.pressed_space <;> by_cases hg : g.player.is_grounded <;>
    simp [hs, hg]

/-- C2 witness: the amended theorem applied at the idle input (Space not held)
on the initial state. -/
theorem jump_iff_held_and_grounded_witness :
    (movement idleInput initState).player.is_grounded =
      initState.player.is_grounded ∧
    (movement idleInput initState).player.velocity.y =
      initState.player.velocity.y :=
  (jump_iff_held_and_grounded idleInput initState).2 (Or.inl rfl)

theorem rclamp_mem (x lo hi : ℚ) (h : lo ≤ hi) :
    lo ≤ rclamp x lo hi ∧ rclamp x lo hi ≤ hi := by
  unfold rclamp
  split_ifs with h1 h2
  · exact ⟨le_refl lo, h⟩
  · exact ⟨h, le_refl hi⟩
  · exact ⟨le_of_not_lt h1, le_of_not_gt h2⟩

theorem rclamp_id (x lo hi : ℚ) (h1 : lo ≤ x) (h2 : x ≤ hi) :
    rclamp x lo hi = x := by
  unfold rclamp
  rw [if_neg (not_lt.mpr h1), if_neg (not_lt.mpr h2)]

theorem tau5_nonneg : -(TAU / 5) ≤ (TAU / 5 : ℚ) := by norm_num [TAU]

theorem camera_event_pitch_range (s : Settings) (mode : CursorGrabMode)
    (d : ℚ × ℚ) (c : CameraState) :
    -(TAU / 5) ≤ (camera_event s mode d c).pitch ∧
      (camera_event s mode d c).pitch ≤ TAU / 5 := by
  cases mode <;> exact rclamp_mem _ _ _ tau5_nonneg

theorem camera_event_none (s : Settings) (d : ℚ × ℚ) (c : CameraState)
    (h1 : -(TAU / 5) ≤ c.pitch) (h2 : c.pitch ≤ TAU / 5) :
    camera_event s CursorGrabMode.None d c = c := by
  rcases c with ⟨cy, cp⟩
  simp only [camera_event]
  rw [rclamp_id cp (-(TAU / 5)) (TAU / 5) h1 h2]

theorem foldl_camera_none (s : Settings) (ds : List (ℚ × ℚ)) (c : CameraState)
    (h1 : -(TAU / 5) ≤ c.pitch) (h2 : c.pitch ≤ TAU / 5) :
    List.foldl (fun c d => camera_event s CursorGrabMode.None d c) c ds = c := by
  induction ds with
  | nil => rfl
  | cons d ds ih => rw [List.foldl_cons, camera_event_none s d c h1 h2, ih]

theorem foldl_camera_pitch_range (s : Settings) (mode : CursorGrabMode)
    (ds : List (ℚ × ℚ)) (c : CameraState)
    (h : -(TAU / 5) ≤ c.pitch ∧ c.pitch ≤ TAU / 5) :
    -(TAU / 5) ≤ (List.foldl (fun c d => camera_event s mode d c) c ds).pitch ∧
      (List.foldl (fun c d => camera_event s mode d c) c ds).pitch ≤ TAU / 5 := by
  induction ds generalizing c with
  | nil => exact h
  | cons d ds ih => exact ih _ (camera_event_pitch_range s mode d c)

theorem grab_cursor_camera (inp : TickInput) (g : GameState) :
    (grab_cursor inp g).camera = g.camera := rfl

theorem controller_update_camera (inp : TickInput) (g : GameState) :
    (controller_update inp g).camera = g.camera := rfl

theorem movement_camera (inp : TickInput) (g : GameState) :
    (movement inp g).camera = g.camera := by
  simp only [movement]
  split_ifs <;> rfl

theorem friction_camera (g : GameState) : (friction g).camera = g.camera := by
  simp only [friction]
  split_ifs <;> rfl

theorem gravity_camera (inp : TickInput) (g : GameState) :
    (gravity inp g).camera = g.camera := by
  unfold gravity gravity_integrate ground_resolve
  split_ifs <;> rfl

/-- Pitch stays in the clamp range along every reachable state. -/
def PitchInv (g : GameState) : Prop :=
  -(TAU / 5) ≤ g.camera.pitch ∧ g.camera.pitch ≤ TAU / 5

theorem tick_pitch_inv (inp : TickInput) (g : GameState) :
    PitchInv g → PitchInv (tick inp g) := by
  intro h
  unfold PitchInv tick
  rw [gravity_camera, friction_camera, movement_camera, controller_update_camera]
  simp only [camera_movement]
  refine foldl_camera_pitch_range _ _ _ _ ?_
  rw [grab_cursor_camera]
  exact h

theorem reachable_pitch_inv (g : GameState) (h : Reachable g) : PitchInv g := by
  induction h with
  | init =>
    constructor
    · norm_num [initState, TAU]
    · norm_num [initState, TAU]
  | step g inp _ ih => exact tick_pitch_inv inp g ih

/-- C3: every orientation update clamps the resulting pitch into
`[-TAU/5, TAU/5]` whatever the sign and magnitude of the pointer delta, and
clamping a pitch already in that range is a no-op. -/
theorem pitch_clamped_and_clamp_idem :
    (∀ (s : Settings) (mode : CursorGrabMode) (d : ℚ × ℚ) (c : CameraState),
      -(TAU / 5) ≤ (camera_event s mode d c).pitch ∧
        (camera_event s mode d c).pitch ≤ TAU / 5) ∧
    (∀ p : ℚ, -(TAU / 5) ≤ p → p ≤ TAU / 5 →
      rclamp p (-(TAU / 5)) (TAU / 5) = p) :=
  ⟨camera_event_pitch_range, fun p h1 h2 => rclamp_id p _ _ h1 h2⟩

/-- C3 witness: the clamp is a no-op at pitch 0. -/
theorem pitch_clamped_and_clamp_idem_witness :
    rclamp 0 (-(TAU / 5)) (TAU / 5) = 0 :=
  pitch_clamped_and_clamp_idem.2 0 (by norm_num [TAU]) (by norm_num [TAU])

/-- The initial state with the cursor released (as `grab_cursor` leaves it
after an Escape press). -/
def released_state : GameState :=
  { initState with window := { grab_mode := CursorGrabMode.None, visible := true } }

/-- The idle input carrying one non-trivial mouse-motion delta. -/
def mouseInput : TickInput := { idleInput with mouse_deltas := [(5, 7)] }

/-- C4: along reachable states the pitch stays in the clamp range, and in any
tick whose cursor grab mode is `None` (capture released) the orientation
controller leaves yaw and pitch — hence the recomposed rotation — unchanged,
whatever pointer deltas arrive; the deltas are consumed and discarded, never
buffered (the state holds no residual delta). -/
theorem released_deltas_leave_orientation :
    (∀ g : GameState, Reachable g →
      -(TAU / 5) ≤ g.camera.pitch ∧ g.camera.pitch ≤ TAU / 5) ∧
    (∀ (s : Settings) (inp : TickInput) (g : GameState),
      g.window.grab_mode = CursorGrabMode.None →
      -(TAU / 5) ≤ g.camera.pitch → g.camera.pitch ≤ TAU / 5 →
      (camera_movement s inp g).camera = g.camera) := by
  constructor
  · exact fun g h => reachable_pitch_inv g h
  · intro s inp g hmode h1 h2
    simp only [camera_movement, hmode]
    exact foldl_camera_none s inp.mouse_deltas g.camera h1 h2

/-- C4 witness: a released tick with a concrete nonzero delta leaves the
camera of the released initial state unchanged. -/
theorem released_deltas_leave_orientation_witness :
    (camera_movement default_settings mouseInput released_state).camera =
      released_state.camera :=
  released_deltas_leave_orientation.2 default_settings mouseInput released_state
    rfl (by norm_num [released_state, initState, TAU])
    (by norm_num [released_state, initState, TAU])

theorem movement_no_keys (inp : TickInput) (g : GameState)
    (he : inp.pressed_e = false) (hs : inp.pressed_s = false)
    (hd : inp.pressed_d = false) (hf : inp.pressed_f = false)
    (hsp : inp.pressed_space = false) :
    (movement inp g).player = g.player := by
  simp [movement, he, hs, hd, hf, hsp]

theorem ground_resolve_velocity_x (g : GameState) :
    (ground_resolve g).player.velocity.x = g.player.velocity.x := by
  unfold ground_resolve
  split_ifs <;> rfl

theorem ground_resolve_velocity_z (g : GameState) :
    (ground_resolve g).player.velocity.z = g.player.velocity.z := by
  unfold ground_resolve
  split_ifs <;> rfl

theorem ground_resolve_grounded_of (g : GameState)
    (h : g.player.is_grounded = true) :
    (ground_resolve g).player.is_grounded = true := by
  unfold ground_resolve
  split_ifs with hy
  · rfl
  · exact h

theorem ground_resolve_velocity_y_zero (g : GameState)
    (h : g.player.velocity.y = 0) :
    (ground_resolve g).player.velocity.y = 0 := by
  unfold ground_resolve
  split_ifs with hy
  · rfl
  · exact h

theorem gravity_integrate_position (inp : TickInput) (g : GameState) :
    (gravity_integrate inp g).player.position = g.player.position := by
  unfold gravity_integrate
  split_ifs <;> rfl

/-- Effect of one whole idle, grounded tick (no keys held, any mouse input) on
the velocity: friction is the only system that touches it, scaling the
horizontal components by 0.8; the vertical component stays zero and the player
stays grounded. -/
theorem tick_idle_decay (inp : TickInput) (g : GameState)
    (he : inp.pressed_e = false) (hs : inp.pressed_s = false)
    (hd : inp.pressed_d = false) (hf : inp.pressed_f = false)
    (hsp : inp.pressed_space = false)
    (hg : g.player.is_grounded = true) (hy : g.player.velocity.y = 0) :
    (tick inp g).player.velocity.x = 0.8 * g.player.velocity.x ∧
    (tick inp g).player.velocity.z = 0.8 * g.player.velocity.z ∧
    (tick inp g).player.velocity.y = 0 ∧
    (tick inp g).player.is_grounded = true := by
  have hmp := movement_no_keys inp
    (controller_update inp (camera_movement default_settings inp (grab_cursor inp g)))
    he hs hd hf hsp
  have h4v : (movement inp (controller_update inp
      (camera_movement default_settings inp (grab_cursor inp g)))).player.velocity
      = g.player.velocity := by
    rw [hmp, controller_update_velocity, camera_movement_player, grab_cursor_player]
  have h4g : (movement inp (controller_update inp
      (camera_movement default_settings inp (grab_cursor inp g)))).player.is_grounded
      = true := by
    rw [hmp, controller_update_grounded, camera_movement_player, grab_cursor_player]
    exact hg
  unfold tick gravity
  set g4 := movement inp (controller_update inp
    (camera_movement default_settings inp (grab_cursor inp g))) with hg4
  have hfv : (friction g4).player.velocity = Vec3.smul 0.8 g4.player.velocity := by
    rw [friction_velocity, if_pos (by rw [h4g])]
  have hfg : (friction g4).player.is_grounded = true := by
    rw [friction_is_grounded]
    exact h4g
  rw [gravity_integrate_grounded_id inp _ hfg]
  refine ⟨?_, ?_, ?_, ?_⟩
  · rw [ground_resolve_velocity_x, hfv, h4v]
    rfl
  · rw [ground_resolve_velocity_z, hfv, h4v]
    rfl
  · refine ground_resolve_velocity_y_zero _ ?_
    rw [hfv, h4v]
    show 0.8 * g.player.velocity.y = 0
    rw [hy, mul_zero]
  · exact ground_resolve_grounded_of _ hfg

/-- A tick input holding no movement or jump key. -/
def NoKeys (i : TickInput) : Prop :=
  i.pressed_e = false ∧ i.pressed_s = false ∧ i.pressed_d = false ∧
    i.pressed_f = false ∧ i.pressed_space = false

theorem tick_fold_decay (l : List TickInput) (g : GameState)
    (hk : ∀ i ∈ l, NoKeys i)
    (hg : g.player.is_grounded = true) (hy : g.player.velocity.y = 0) :
    (List.foldl (fun s i => tick i s) g l).player.velocity.x
        = 0.8 ^ l.length * g.player.velocity.x ∧
    (List.foldl (fun s i => tick i s) g l).player.velocity.z
        = 0.8 ^ l.length * g.player.velocity.z ∧
    (List.foldl (fun s i => tick i s) g l).player.velocity.y = 0 ∧
    (List.foldl (fun s i => tick i s) g l).player.is_grounded = true := by
  induction l generalizing g with
  | nil =>
    simp only [List.foldl_nil, List.length_nil, pow_zero, one_mul]
    exact ⟨trivial, trivial, hy, hg⟩
  | cons i l ih =>
    obtain ⟨he, hs, hd, hf, hsp⟩ := hk i (List.mem_cons_self i l)
    obtain ⟨hx1, hz1, hy1, hg1⟩ := tick_idle_decay i g he hs hd hf hsp hg hy
    obtain ⟨hx2, hz2, hy2, hg2⟩ :=
      ih (tick i g) (fun j hj => hk j (List.mem_cons_of_mem i hj)) hg1 hy1
    refine ⟨?_, ?_, hy2, hg2⟩
    · rw [List.foldl_cons] at *
      rw [hx2, hx1, List.length_cons]
      ring
    · rw [List.foldl_cons] at *
      rw [hz2, hz1, List.length_cons]
      ring

/-- A grounded state sliding horizontally. -/
def gliding_state : GameState :=
  { initState with
    player := { position := ⟨0, 0, 0⟩, velocity := ⟨1, 0, 2⟩, is_grounded := true } }

/-- C5: on any tick of a (reachable-style) grounded state — grounded states
carry zero vertical velocity — `friction` multiplies the horizontal velocity
components by the damping factor 0.8 and leaves the value of the vertical
component unchanged; when airborne, `friction` is the identity; and over N
whole idle ticks (no keys held) starting grounded, the horizontal components
decay geometrically by the factor 0.8 per tick, the player stays grounded and
neither horizontal component ever reverses sign. -/
theorem friction_damping_and_decay :
    (∀ g : GameState, g.player.is_grounded = true → g.player.velocity.y = 0 →
      (friction g).player.velocity.x = 0.8 * g.player.velocity.x ∧
      (friction g).player.velocity.z = 0.8 * g.player.velocity.z ∧
      (friction g).player.velocity.y = g.player.velocity.y) ∧
    (∀ g : GameState, g.player.is_grounded = false → friction g = g) ∧
    (∀ (g : GameState) (l : List TickInput), (∀ i ∈ l, NoKeys i) →
      g.player.is_grounded = true → g.player.velocity.y = 0 →
      (List.foldl (fun s i => tick i s) g l).player.velocity.x
          = 0.8 ^ l.length * g.player.velocity.x ∧
      (List.foldl (fun s i => tick i s) g l).player.velocity.z
          = 0.8 ^ l.length * g.player.velocity.z ∧
      (List.foldl (fun s i => tick i s) g l).player.is_grounded = true ∧
      (0 ≤ g.player.velocity.x →
        0 ≤ (List.foldl (fun s i => tick i s) g l).player.velocity.x) ∧
      (g.player.velocity.x ≤ 0 →
        (List.foldl (fun s i => tick i s) g l).player.velocity.x ≤ 0) ∧
      (0 ≤ g.player.velocity.z →
        0 ≤ (List.foldl (fun s i => tick i s) g l).player.velocity.z) ∧
      (g.player.velocity.z ≤ 0 →
        (List.foldl (fun s i => tick i s) g l).player.velocity.z ≤ 0)) := by
  refine ⟨?_, ?_, ?_⟩
  · intro g hg hy
    rw [friction_velocity, if_pos (by rw [hg])]
    refine ⟨rfl, rfl, ?_⟩
    show 0.8 * g.player.velocity.y = g.player.velocity.y
    rw [hy, mul_zero]
  · intro g hg
    simp [friction, hg]
  · intro g l hk hg hy
    obtain ⟨hx, hz, _, hg2⟩ := tick_fold_decay l g hk hg hy
    have hp : (0 : ℚ) < 0.8 ^ l.length := by positivity
    refine ⟨hx, hz, hg2, ?_, ?_, ?_, ?_⟩
    · intro h
      rw [hx]
      exact mul_nonneg hp.le h
    · intro h
      rw [hx]
      nlinarith
    · intro h
      rw [hz]
      exact mul_nonneg hp.le h
    · intro h
      rw [hz]
      nlinarith

/-- C5 witness: one idle tick on a concrete grounded sliding state. -/
theorem friction_damping_and_decay_witness :
    (List.foldl (fun s i => tick i s) gliding_state [idleInput]).player.velocity.x
        = 0.8 ^ ([idleInput] : List TickInput).length *
            gliding_state.player.velocity.x ∧
    (List.foldl (fun s i => tick i s) gliding_state
        [idleInput]).player.is_grounded = true := by
  obtain ⟨hx, hz, hgr, hrest⟩ := friction_damping_and_decay.2.2 gliding_state [idleInput]
    (fun i hi => by
      rw [List.mem_singleton] at hi
      subst hi
      exact ⟨rfl, rfl, rfl, rfl, rfl⟩)
    rfl rfl
  exact ⟨hx, hgr⟩

/-- C6: on an airborne tick the vertical integrator part of `gravity`
subtracts `GRAVITY * dt` from the vertical velocity whatever its current value
(no terminal-velocity clamp), touching nothing else; on a grounded tick it is
the identity. -/
theorem gravity_integration_spec (inp : TickInput) (g : GameState) :
    (g.player.is_grounded = false →
      (gravity_integrate inp g).player.velocity.y
          = g.player.velocity.y - GRAVITY * inp.dt ∧
      (gravity_integrate inp g).player.velocity.x = g.player.velocity.x ∧
      (gravity_integrate inp g).player.velocity.z = g.player.velocity.z ∧
      (gravity_integrate inp g).player.position = g.player.position ∧
      (gravity_integrate inp g).player.is_grounded = false) ∧
    (g.player.is_grounded = true → gravity_integrate inp g = g) := by
  constructor
  · intro h
    simp [gravity_integrate, h]
  · exact gravity_integrate_grounded_id inp g

/-- C6 witness: the integrator applied to a concrete falling state. -/
theorem gravity_integration_spec_witness :
    (gravity_integrate idleInput fallen_state).player.velocity.y
      = fallen_state.player.velocity.y - GRAVITY * idleInput.dt :=
  ((gravity_integration_spec idleInput fallen_state).1 rfl).1

/-- A grounded state resting well above ground level. -/
def elevated_state : GameState :=
  { initState with
    player := { position := ⟨0, 5, 0⟩, velocity := ⟨0, 0, 0⟩, is_grounded := true } }

/-- C7 counterexample: a state whose position is strictly above ground level
(`position.y = 5 > 0`) with `is_grounded = true` keeps `is_grounded = true`
after a whole tick: the source has no branch clearing `is_grounded` when
`position.y > 0` (only the jump clears it), so the claim's second half is
false. -/
theorem above_ground_keeps_grounded :
    elevated_state.player.position.y > 0 ∧
    elevated_state.player.is_grounded = true ∧
    (tick idleInput elevated_state).player.position.y > 0 ∧
    (tick idleInput elevated_state).player.is_grounded = true := by
  refine ⟨by norm_num [elevated_state, initState], rfl, ?_, ?_⟩
  · norm_num [tick, gravity, gravity_integrate, ground_resolve, friction, movement,
      controller_update, camera_movement, grab_cursor, Vec3.smul, Vec3.add_def,
      elevated_state, initState, idleInput]
  · norm_num [tick, gravity, gravity_integrate, ground_resolve, friction, movement,
      controller_update, camera_movement, grab_cursor, Vec3.smul, Vec3.add_def,
      elevated_state, initState, idleInput]

/-- C7 amended: under the height-threshold resolution, after position
integration, whenever `position.y < 0` the `gravity` system snaps `position.y`
to 0, sets `velocity.y` to 0 and sets `is_grounded` to true; whenever
`position.y ≥ 0` it leaves the position and `is_grounded` unchanged — it never
sets `is_grounded` to false; airborne status arises only from the jump action
in `movement`. -/
theorem ground_resolution_spec (inp : TickInput) (g : GameState) :
    (g.player.position.y < 0 →
      (gravity inp g).player.position.y = 0 ∧
      (gravity inp g).player.velocity.y = 0 ∧
      (gravity inp g).player.is_grounded = true) ∧
    (¬g.player.position.y < 0 →
      (gravity inp g).player.position = g.player.position ∧
      (gravity inp g).player.is_grounded = g.player.is_grounded) := by
  have hpos := gravity_integrate_position inp g
  have hgr := gravity_integrate_is_grounded inp g
  unfold gravity ground_resolve
  constructor
  · intro h
    rw [if_pos (by rw [hpos]; exact h)]
    exact ⟨rfl, rfl, rfl⟩
  · intro h
    rw [if_neg (by rw [hpos]; exact h)]
    exact ⟨hpos, hgr⟩

/-- C7 amended witness: the snap branch on a concrete sunk state. -/
theorem ground_resolution_spec_witness :
    (gravity idleInput fallen_state).player.position.y = 0 ∧
    (gravity idleInput fallen_state).player.velocity.y = 0 ∧
    (gravity idleInput fallen_state).player.is_grounded = true :=
  (ground_resolution_spec idleInput fallen_state).1 (by norm_num [fallen_state])

theorem camera_movement_window (s : Settings) (inp : TickInput) (g : GameState) :
    (camera_movement s inp g).window = g.window := rfl

theorem controller_update_window (inp : TickInput) (g : GameState) :
    (controller_update inp g).window = g.window := rfl

theorem movement_window (inp : TickInput) (g : GameState) :
    (movement inp g).window = g.window := by
  simp only [movement]
  split_ifs <;> rfl

theorem friction_window (g : GameState) : (friction g).window = g.window := by
  simp only [friction]
  split_ifs <;> rfl

theorem gravity_window (inp : TickInput) (g : GameState) :
    (gravity inp g).window = g.window := by
  unfold gravity gravity_integrate ground_resolve
  split_ifs <;> rfl

theorem grab_cursor_grab_mode (inp : TickInput) (g : GameState) :
    (grab_cursor inp g).window.grab_mode =
      (if inp.just_left_mouse then CursorGrabMode.Confined
        else if inp.just_escape then CursorGrabMode.None
        else g.window.grab_mode) := by
  simp only [grab_cursor]
  by_cases h1 : inp.just_left_mouse <;> by_cases h2 : inp.just_escape <;> simp [h1, h2]

theorem tick_window (inp : TickInput) (g : GameState) :
    (tick inp g).window = (grab_cursor inp g).window := by
  unfold tick
  rw [gravity_window, friction_window, movement_window, controller_update_window,
    camera_movement_window]

/-- The window's grab mode only ever takes the two values the source writes. -/
def ModeInv (g : GameState) : Prop :=
  g.window.grab_mode = CursorGrabMode.Confined ∨
    g.window.grab_mode = CursorGrabMode.None

theorem tick_mode_inv (inp : TickInput) (g : GameState) :
    ModeInv g → ModeInv (tick inp g) := by
  intro h
  unfold ModeInv
  rw [tick_window, grab_cursor_grab_mode]
  split_ifs
  · exact Or.inl rfl
  · exact Or.inr rfl
  · exact h

theorem reachable_mode_inv (g : GameState) (h : Reachable g) : ModeInv g := by
  induction h with
  | init => exact Or.inl rfl
  | step g inp _ ih => exact tick_mode_inv inp g ih

/-- The idle input with Escape and the left mouse button both just pressed. -/
def bothPressInput : TickInput :=
  { idleInput with just_escape := true, just_left_mouse := true }

/-- C9 counterexample: from the Captured state, a tick in which the release
key (Escape) is just pressed does not always transition to Released — when the
primary pointer press is just pressed in the same tick, the second `if` in
`grab_cursor` overwrites the release and the state ends Captured, so the
claimed "transitions Captured to Released exactly on a just-pressed Escape"
is false at this input. -/
theorem simultaneous_press_stays_captured :
    captureOf initState.window.grab_mode = CaptureState.Captured ∧
    bothPressInput.just_escape = true ∧
    captureOf (grab_cursor bothPressInput initState).window.grab_mode
      = CaptureState.Captured := ⟨rfl, rfl, rfl⟩

/-- C9 amended: the capture state machine starts Captured; on each tick a
just-pressed primary pointer press sets Captured, otherwise a just-pressed
Escape sets Released, otherwise the state persists unchanged — so when both
edges fire in one tick the pointer press wins; and along reachable states the
grab mode takes exactly the two values Confined (Captured) and None
(Released). -/
theorem cursor_capture_transitions :
    captureOf initState.window.grab_mode = CaptureState.Captured ∧
    (∀ (inp : TickInput) (g : GameState),
      captureOf (grab_cursor inp g).window.grab_mode =
        (if inp.just_left_mouse then CaptureState.Captured
          else if inp.just_escape then CaptureState.Released
          else captureOf g.window.grab_mode)) ∧
    (∀ g : GameState, Reachable g →
      g.window.grab_mode = CursorGrabMode.Confined ∨
        g.window.grab_mode = CursorGrabMode.None) := by
  refine ⟨rfl, ?_, ?_⟩
  · intro inp g
    rw [grab_cursor_grab_mode]
    by_cases h1 : inp.just_left_mouse <;> by_cases h2 : inp.just_escape <;>
      simp [h1, h2, captureOf]
  · exact fun g h => reachable_mode_inv g h

/-- C9 witness: the two-state part applied at the initial state. -/
theorem cursor_capture_transitions_witness :
    initState.window.grab_mode = CursorGrabMode.Confined ∨
      initState.window.grab_mode = CursorGrabMode.None :=
  cursor_capture_transitions.2.2 initState Reachable.init

theorem tau5_lt_half_pi : ((TAU : ℚ) : ℝ) / 5 < Real.pi / 2 := by
  have hpi := Real.pi_gt_d6
  have h1 : ((TAU : ℚ) : ℝ) < 6.2832 := by norm_num [TAU]
  linarith

theorem cos_pitch_pos (pitch : ℝ) (hp : |pitch| ≤ ((TAU : ℚ) : ℝ) / 5) :
    0 < Real.cos pitch := by
  obtain ⟨hlo, hhi⟩ := abs_le.mp hp
  have h2 : 0 ≤ ((TAU : ℚ) : ℝ) / 5 := by norm_num [TAU]
  apply Real.cos_pos_of_mem_Ioo
  constructor
  · have := tau5_lt_half_pi
    linarith
  · have := tau5_lt_half_pi
    linarith

/-- C10: for every pitch in the clamped range, the horizontal projection of
the camera forward vector is nonzero, so the normalisation in `movement`
never divides by a zero length; moreover the clamp bound TAU/5 is strictly
below the degenerate 90-degree pitch. -/
theorem horizontal_forward_nonzero :
    ((TAU : ℚ) : ℝ) / 5 < Real.pi / 2 ∧
    (∀ (yaw pitch : ℝ) (v : ℝ × ℝ × ℝ),
      |pitch| ≤ ((TAU : ℚ) : ℝ) / 5 → CameraForwardIs yaw pitch v →
      (v.1 ≠ 0 ∨ v.2.2 ≠ 0) ∧ 0 < Real.sqrt (v.1 ^ 2 + v.2.2 ^ 2)) := by
  refine ⟨tau5_lt_half_pi, ?_⟩
  intro yaw pitch v hp hv
  have hc := cos_pitch_pos pitch hp
  obtain ⟨hv1, hv2, hv3⟩ := hv
  have hpyth := Real.sin_sq_add_cos_sq yaw
  constructor
  · by_contra hcon
    push_neg at hcon
    obtain ⟨h1, h2⟩ := hcon
    rw [hv1, neg_eq_zero] at h1
    rw [hv3, neg_eq_zero] at h2
    have hsy : Real.sin yaw = 0 := by
      rcases mul_eq_zero.mp h1 with h | h
      · exact absurd h hc.ne'
      · exact h
    have hcy : Real.cos yaw = 0 := by
      rcases mul_eq_zero.mp h2 with h | h
      · exact absurd h hc.ne'
      · exact h
    rw [hsy, hcy] at hpyth
    norm_num at hpyth
  · apply Real.sqrt_pos.mpr
    rw [hv1, hv3]
    nlinarith [mul_pos hc hc]

/-- C10 witness: the forward vector at yaw and pitch zero. -/
theorem horizontal_forward_nonzero_witness :
    (((0 : ℝ), (0 : ℝ), (-1 : ℝ)).1 ≠ 0 ∨ ((0 : ℝ), (0 : ℝ), (-1 : ℝ)).2.2 ≠ 0) ∧
    0 < Real.sqrt (((0 : ℝ), (0 : ℝ), (-1 : ℝ)).1 ^ 2 +
      ((0 : ℝ), (0 : ℝ), (-1 : ℝ)).2.2 ^ 2) :=
  horizontal_forward_nonzero.2 0 0 (0, 0, -1)
    (by norm_num [TAU])
    (by simp [CameraForwardIs])

theorem movement_velocity_x (inp : TickInput) (g : GameState) :
    (movement inp g).player.velocity.x =
      g.player.velocity.x
        + (if inp.pressed_e then inp.forward_h.1 else 0)
        + (if inp.pressed_s then inp.forward_h.2 else 0)
        - (if inp.pressed_d then inp.forward_h.1 else 0)
        - (if inp.pressed_f then inp.forward_h.2 else 0) := by
  simp only [movement]
  split_ifs <;> (simp [Vec3.smul, Vec3.add_def, Vec3.sub_def]; try ring)

theorem movement_velocity_z (inp : TickInput) (g : GameState) :
    (movement inp g).player.velocity.z =
      g.player.velocity.z
        + (if inp.pressed_e then inp.forward_h.2 else 0)
        - (if inp.pressed_s then inp.forward_h.1 else 0)
        - (if inp.pressed_d then inp.forward_h.2 else 0)
        + (if inp.pressed_f then inp.forward_h.1 else 0) := by
  simp only [movement]
  split_ifs <;> (simp [Vec3.smul, Vec3.add_def, Vec3.sub_def]; try ring)

/-- The idle input with the forward and strafe-right keys both held. -/
def diagInput : TickInput := { idleInput with pressed_e := true, pressed_f := true }

/-- C8: the normalised horizontal forward has zero vertical component, unit
length and equals the yaw direction; each held movement key adds its
direction times speed (1) to the horizontal velocity, composing additively;
and with a unit facing, two simultaneous perpendicular keys give a squared
displacement speed of 2 versus 1 for a single key — diagonal movement is
faster than axial, with no normalisation of the combined direction. -/
theorem movement_direction_spec :
    (∀ (yaw pitch : ℝ) (v h : ℝ × ℝ × ℝ),
      |pitch| ≤ ((TAU : ℚ) : ℝ) / 5 → CameraForwardIs yaw pitch v →
      HorizNormalizedIs v h →
      h.2.1 = 0 ∧ h.1 = -Real.sin yaw ∧ h.2.2 = -Real.cos yaw ∧
        h.1 ^ 2 + h.2.2 ^ 2 = 1) ∧
    (∀ (inp : TickInput) (g : GameState),
      (movement inp g).player.velocity.x =
        g.player.velocity.x
          + (if inp.pressed_e then inp.forward_h.1 else 0)
          + (if inp.pressed_s then inp.forward_h.2 else 0)
          - (if inp.pressed_d then inp.forward_h.1 else 0)
          - (if inp.pressed_f then inp.forward_h.2 else 0) ∧
      (movement inp g).player.velocity.z =
        g.player.velocity.z
          + (if inp.pressed_e then inp.forward_h.2 else 0)
          - (if inp.pressed_s then inp.forward_h.1 else 0)
          - (if inp.pressed_d then inp.forward_h.2 else 0)
          + (if inp.pressed_f then inp.forward_h.1 else 0)) ∧
    (∀ (inp : TickInput) (g : GameState),
      inp.forward_h.1 ^ 2 + inp.forward_h.2 ^ 2 = 1 →
      (inp.pressed_e = true → inp.pressed_f = true → inp.pressed_s = false →
        inp.pressed_d = false →
        ((movement inp g).player.velocity.x - g.player.velocity.x) ^ 2 +
          ((movement inp g).player.velocity.z - g.player.velocity.z) ^ 2 = 2) ∧
      (inp.pressed_e = true → inp.pressed_s = false → inp.pressed_d = false →
        inp.pressed_f = false →
        ((movement inp g).player.velocity.x - g.player.velocity.x) ^ 2 +
          ((movement inp g).player.velocity.z - g.player.velocity.z) ^ 2 = 1) ∧
      (1 : ℚ) < 2) := by
  refine ⟨?_, ?_, ?_⟩
  · intro yaw pitch v h hp hv hh
    have hc := cos_pitch_pos pitch hp
    obtain ⟨hv1, hv2, hv3⟩ := hv
    obtain ⟨hh1, hh2, hh3⟩ := hh
    have hpyth := Real.sin_sq_add_cos_sq yaw
    have hlen : Real.sqrt (v.1 ^ 2 + v.2.2 ^ 2) = Real.cos pitch := by
      rw [hv1, hv3]
      have hsq : (-(Real.cos pitch * Real.sin yaw)) ^ 2 +
          (-(Real.cos pitch * Real.cos yaw)) ^ 2 = Real.cos pitch ^ 2 := by
        linear_combination (Real.cos pitch ^ 2) * hpyth
      rw [hsq]
      exact Real.sqrt_sq hc.le
    refine ⟨hh2, ?_, ?_, ?_⟩
    · rw [hh1, hlen, hv1]
      field_simp
      ring
    · rw [hh3, hlen, hv3]
      field_simp
      ring
    · rw [hh1, hh3, hlen, hv1, hv3]
      field_simp
      linear_combination (Real.cos pitch ^ 2) * hpyth
  · exact fun inp g => ⟨movement_velocity_x inp g, movement_velocity_z inp g⟩
  · intro inp g hunit
    refine ⟨?_, ?_, by norm_num⟩
    · intro he hf hs hd
      rw [movement_velocity_x, movement_velocity_z]
      simp only [he, hf, hs, hd]
      simp only [if_true, if_false, Bool.false_eq_true]
      ring_nf
      linear_combination 2 * hunit
    · intro he hs hd hf
      rw [movement_velocity_x, movement_velocity_z]
      simp only [he, hf, hs, hd]
      simp only [if_true, if_false, Bool.false_eq_true]
      ring_nf
      linear_combination hunit

/-- C8 witness: holding forward and strafe-right together on the initial
state with the unit facing `(0, -1)` yields squared speed 2. -/
theorem movement_direction_spec_witness :
    ((movement diagInput initState).player.velocity.x -
        initState.player.velocity.x) ^ 2 +
      ((movement diagInput initState).player.velocity.z -
        initState.player.velocity.z) ^ 2 = 2 :=
  (movement_direction_spec.2.2 diagInput initState
      (by norm_num [diagInput, idleInput])).1 rfl rfl rfl rfl
